import Mathlib

/-!
Verification development for the api-key-aggregetor repository.

The definitions below are a shallow embedding of the TypeScript sources:
`src/server/core/GoogleApiForwarder.ts` (forwardRequest, forwardOpenAIRequest),
the OpenAI route adapter (createOpenAIRouter, handleStreamingResponse) and the
key-loading prologue of `src/server.ts`.  External effects (the Google SDK
calls, `fetch`, Express response writes) are modelled by explicit behaviour
parameters; logging is effect-free and therefore elided.  JavaScript values
that may be `undefined` are modelled with `Option`; a function that may throw
returns `Except JsError`.
-/

/-- Shape of a JavaScript error value as inspected by the forwarder catch
blocks: `error.message`, `error.response?.status` and `error.statusCode`. -/
structure JsError where
  message : String
  responseStatus : Option Nat
  statusCode : Option Nat
deriving DecidableEq

/-- The `ApiKey` record handed out by the dispatcher; only `.key` is read by
the forwarder and the route handlers. -/
structure ApiKey where
  key : String
deriving DecidableEq

/-- Mirror of the `GoogleApiError` class of GoogleApiForwarder.ts. -/
structure GoogleApiError where
  message : String
  statusCode : Option Nat
  apiKey : Option String
  isRateLimitError : Bool
deriving DecidableEq

/-- Result union of the forwarder: exactly one of `{response}`, `{stream}`,
`{error}` is produced by each return statement of the source. -/
inductive FwdResult where
  | response
  | stream
  | error (e : GoogleApiError)
deriving DecidableEq

/-- Behaviour of the one Google SDK call a `forwardRequest` branch awaits:
it either resolves or rejects with a JavaScript error value. -/
inductive LibBehavior where
  | success
  | raises (e : JsError)
deriving DecidableEq

/-- Behaviour of the `fetch` call in `forwardOpenAIRequest`: the fetch itself
may reject, or it responds with a status; `bodyErr = some e` means the
subsequent `response.text()` / `response.json()` call rejects with `e`. -/
inductive FetchBehavior where
  | raises (e : JsError)
  | respond (status : Nat) (bodyErr : Option JsError)
deriving DecidableEq

/-- JavaScript truthy-or on two possibly-undefined numbers, as in
`error.response?.status || error.statusCode` (note that `0` is falsy). -/
def jsOrOpt : Option Nat → Option Nat → Option Nat
  | some v, b => if v = 0 then b else some v
  | none, b => b

/-- JavaScript truthy-or against a numeric default, as in
`error.statusCode || 500` (note that `0` is falsy). -/
def jsOrDefault : Option Nat → Nat → Nat
  | some v, d => if v = 0 then d else v
  | none, d => d

/-- Error object built by the catch block of `forwardRequest`:
`statusCode = error.response?.status || error.statusCode`,
`isRateLimit = (statusCode === 429)`. -/
def catchToGoogleError (e : JsError) (k : ApiKey) : GoogleApiError :=
  let sc := jsOrOpt e.responseStatus e.statusCode
  ⟨"Google API Error: " ++ e.message, sc, some k.key, decide (sc = some 429)⟩

/-- Error object built by the catch block of `forwardOpenAIRequest`:
`statusCode = error.statusCode || 500` and `isRateLimitError = false`
unconditionally. -/
def fetchCatchError (e : JsError) (k : ApiKey) : GoogleApiError :=
  ⟨"OpenAI Compatible API Error: " ++ e.message,
    some (jsOrDefault e.statusCode 500), some k.key, false⟩

/-- Shallow embedding of `GoogleApiForwarder.forwardRequest`.  The second
component of the result lists the Google SDK methods actually invoked, so
that "no upstream call was performed" is observable.  The `Except` layer
records whether an exception escapes the function (none ever does: every
branch is inside the try/catch). -/
def forwardRequest (modelId methodName : String) (k : ApiKey)
    (lib : LibBehavior) : Except JsError FwdResult × List String :=
  if methodName = "generateContent" then
    match lib with
    | .success => (Except.ok FwdResult.response, ["generateContent"])
    | .raises e =>
        (Except.ok (FwdResult.error (catchToGoogleError e k)), ["generateContent"])
  else if methodName = "streamGenerateContent" then
    match lib with
    | .success => (Except.ok FwdResult.stream, ["streamGenerateContent"])
    | .raises e =>
        (Except.ok (FwdResult.error (catchToGoogleError e k)), ["streamGenerateContent"])
  else if methodName = "countTokens" then
    match lib with
    | .success => (Except.ok FwdResult.response, ["countTokens"])
    | .raises e =>
        (Except.ok (FwdResult.error (catchToGoogleError e k)), ["countTokens"])
  else
    (Except.ok (FwdResult.error
      ⟨"Unsupported API method: " ++ methodName, some 400, some k.key, false⟩), [])

/-- Shallow embedding of `GoogleApiForwarder.forwardOpenAIRequest`.
`streamReq` models `requestBody?.stream`; `response.ok` is
`200 <= status <= 299`.  A body-read rejection lands in the same catch block
as a fetch rejection. -/
def forwardOpenAIRequest (path : String) (streamReq : Bool) (k : ApiKey)
    (method : String) (fb : FetchBehavior) : Except JsError FwdResult :=
  match fb with
  | .raises e => Except.ok (FwdResult.error (fetchCatchError e k))
  | .respond status bodyErr =>
    if 200 ≤ status ∧ status ≤ 299 then
      if streamReq then
        Except.ok FwdResult.stream
      else
        match bodyErr with
        | some e => Except.ok (FwdResult.error (fetchCatchError e k))
        | none => Except.ok FwdResult.response
    else
      match bodyErr with
      | some e => Except.ok (FwdResult.error (fetchCatchError e k))
      | none =>
        Except.ok (FwdResult.error
          ⟨"OpenAI Compatible API Error: " ++ toString status, some status,
            some k.key, decide (status = 429)⟩)

/-- Projection: the error outcome carried by a forwarder result, if any. -/
def resultError : Except JsError FwdResult → Option GoogleApiError
  | Except.ok (FwdResult.error ge) => some ge
  | _ => none

/-- True when an `Except` value is `ok`, i.e. no exception escaped. -/
def exceptIsOk : Except ε α → Bool
  | Except.ok _ => true
  | Except.error _ => false

/-- A forwarder result classifies its rate-limit flag consistently when any
error outcome it carries has `isRateLimitError` exactly when its stored
status code is 429. -/
def rlConsistent (res : Except JsError FwdResult) : Bool :=
  match res with
  | Except.ok (FwdResult.error ge) =>
      ge.isRateLimitError == decide (ge.statusCode = some 429)
  | _ => true

/-- A forwarder result whose error outcome, if any, is not flagged as a
rate-limit failure. -/
def errNotRL (res : Except JsError FwdResult) : Bool :=
  match res with
  | Except.ok (FwdResult.error ge) => ge.isRateLimitError == false
  | _ => true

/-- C1 counterexample: when the fetch in `forwardOpenAIRequest` rejects with
an error carrying `statusCode = 429`, the returned failure stores status
code 429 yet has `isRateLimitError = false`, so the claimed
"isRateLimit iff status = 429" equivalence fails at this concrete input. -/
theorem forwardOpenAI_catch_429_not_ratelimit :
    rlConsistent (forwardOpenAIRequest "/v1/chat/completions" false ⟨"k1"⟩ "POST"
        (FetchBehavior.raises ⟨"boom", none, some 429⟩)) = false
    ∧ (resultError (forwardOpenAIRequest "/v1/chat/completions" false ⟨"k1"⟩ "POST"
        (FetchBehavior.raises ⟨"boom", none, some 429⟩))).map
        (fun ge => (ge.statusCode, ge.isRateLimitError)) = some (some 429, false) := by
  constructor <;> rfl

/-- C1 (amended): `forwardRequest` always classifies `isRateLimit` as
"stored status code equals 429", and so do the failures that
`forwardOpenAIRequest` builds from an upstream non-2xx response whose body
was read successfully; but every failure produced by the catch path of
`forwardOpenAIRequest` (a rejected fetch or a rejected body read) has
`isRateLimitError = false` regardless of any status code carried by the
thrown error. -/
theorem rateLimit_classification_amended :
    (∀ m mn k lib, rlConsistent (forwardRequest m mn k lib).1 = true)
    ∧ (∀ p s k meth st,
        rlConsistent (forwardOpenAIRequest p s k meth (FetchBehavior.respond st none)) = true)
    ∧ (∀ p s k meth e,
        errNotRL (forwardOpenAIRequest p s k meth (FetchBehavior.raises e)) = true)
    ∧ (∀ p s k meth st e,
        errNotRL (forwardOpenAIRequest p s k meth (FetchBehavior.respond st (some e))) = true) := by
  refine ⟨?_, ?_, ?_, ?_⟩
  · intro m mn k lib
    simp only [forwardRequest]
    split
    · cases lib with
      | success => rfl
      | raises e => simp [rlConsistent, catchToGoogleError]
    · split
      · cases lib with
        | success => rfl
        | raises e => simp [rlConsistent, catchToGoogleError]
      · split
        · cases lib with
          | success => rfl
          | raises e => simp [rlConsistent, catchToGoogleError]
        · rfl
  · intro p s k meth st
    simp only [forwardOpenAIRequest]
    split
    · split
      · rfl
      · rfl
    · simp [rlConsistent]
  · intro p s k meth e
    rfl
  · intro p s k meth st e
    simp only [forwardOpenAIRequest]
    split
    · split
      · rfl
      · rfl
    · rfl

/-- C7: for every input and every behaviour of the awaited upstream call,
both forwarder entry points return an outcome value; no exception escapes
(the whole body after argument set-up sits inside try/catch, and every
branch of the catch returns an error outcome). -/
theorem forwarder_never_raises :
    (∀ m mn k lib, exceptIsOk (forwardRequest m mn k lib).1 = true)
    ∧ (∀ p s k meth fb, exceptIsOk (forwardOpenAIRequest p s k meth fb) = true) := by
  constructor
  · intro m mn k lib
    simp only [forwardRequest]
    split
    · cases lib <;> rfl
    · split
      · cases lib <;> rfl
      · split
        · cases lib <;> rfl
        · rfl
  · intro p s k meth fb
    rcases fb with e | ⟨st, be⟩
    · rfl
    · simp only [forwardOpenAIRequest]
      split
      · split
        · rfl
        · rcases be with _ | e <;> rfl
      · rcases be with _ | e <;> rfl

/-- C8: for every method name other than the three supported ones,
`forwardRequest` returns the defensive 400 error outcome with
`isRateLimitError = false`, and performs no upstream call (the invoked-call
list is empty). -/
theorem unsupported_method_400 :
    ∀ m mn k lib,
      mn ≠ "generateContent" → mn ≠ "streamGenerateContent" → mn ≠ "countTokens" →
      forwardRequest m mn k lib
        = (Except.ok (FwdResult.error
            ⟨"Unsupported API method: " ++ mn, some 400, some k.key, false⟩), []) := by
  intro m mn k lib h1 h2 h3
  simp [forwardRequest, h1, h2, h3]

/-- Witness for C8 at the concrete unsupported method name `embedContent`. -/
theorem unsupported_method_400_witness :
    ("embedContent" ≠ "generateContent" ∧ "embedContent" ≠ "streamGenerateContent"
      ∧ "embedContent" ≠ "countTokens")
    ∧ forwardRequest "gemini-pro" "embedContent" ⟨"k1"⟩ LibBehavior.success
        = (Except.ok (FwdResult.error
            ⟨"Unsupported API method: " ++ "embedContent", some 400, some "k1", false⟩), []) :=
  ⟨⟨by decide, by decide, by decide⟩,
    unsupported_method_400 "gemini-pro" "embedContent" ⟨"k1"⟩ LibBehavior.success
      (by decide) (by decide) (by decide)⟩

/-- Observable actions of the `/v1/chat/completions` handler of
createOpenAIRouter, in program order: the forward call, the calls into
ApiKeyManager (`decrementRequestCount`, `markAsCoolingDown`), the response
sent (`respond status`), the streaming branch (relay then `res.end`), and
`nextError` for an exception escaping to the Express error middleware. -/
inductive Ev where
  | forwardCall
  | decrementRequestCount (key : String)
  | markAsCoolingDown (key : String) (ms : Nat)
  | respond (status : Nat)
  | streamRelay
  | resEnd
  | nextError
deriving DecidableEq

/-- The record returned by `forwardOpenAIRequest` as the handler sees it:
the handler tests `forwardResult.error`, then `.stream`, then `.response`,
and has a defensive branch when none is set. -/
structure FwdOutcomeRec where
  error : Option GoogleApiError
  hasStream : Bool
  hasResponse : Bool
deriving DecidableEq

/-- Behaviour of the awaited `forwardOpenAIRequest` call as seen from the
handler: it either resolves with an outcome record or rejects. -/
inductive ForwardBehavior where
  | raises
  | returns (r : FwdOutcomeRec)
deriving DecidableEq

/-- Behaviour of a non-streaming Express response write: it either succeeds
or throws (which the handler's outer catch turns into `next(error)`). -/
inductive WriteBehavior where
  | ok
  | raises
deriving DecidableEq

/-- Events of one response write attempt with the given status. -/
def respondEv (wb : WriteBehavior) (status : Nat) : List Ev :=
  match wb with
  | .ok => [Ev.respond status]
  | .raises => [Ev.nextError]

/-- Shallow embedding of the `/v1/chat/completions` handler of
createOpenAIRouter (the other four handlers in the file share this exact
structure).  `cooldownMs` is `config.KEY_COOL_DOWN_DURATION_MS`; `sel` is
the dispatcher result; the result is the handler's event trace.  Note that
`decrementRequestCount` is an inline statement after the awaited forward
call, not a finally block: a rejected forward call jumps to the outer
catch. The streaming branch catches write errors internally and always
ends the response. -/
def chatCompletionsHandler (cooldownMs : Nat) (sel : Option String)
    (fwd : ForwardBehavior) (wb : WriteBehavior) : List Ev :=
  match sel with
  | none => respondEv wb 503
  | some key =>
    match fwd with
    | .raises => [Ev.forwardCall, Ev.nextError]
    | .returns r =>
      [Ev.forwardCall, Ev.decrementRequestCount key] ++
      (match r.error with
       | some err =>
         (if err.isRateLimitError then [Ev.markAsCoolingDown key cooldownMs] else []) ++
         respondEv wb (jsOrDefault err.statusCode 500)
       | none =>
         if r.hasStream then [Ev.streamRelay, Ev.resEnd]
         else if r.hasResponse then respondEv wb 200
         else respondEv wb 500)

/-- Number of `decrementRequestCount` calls for key `k` in a trace. -/
def countRelease (k : String) (t : List Ev) : Nat :=
  t.countP (fun ev => decide (ev = Ev.decrementRequestCount k))

/-- The `markAsCoolingDown` calls occurring in a trace. -/
def coolDownEvents (t : List Ev) : List Ev :=
  t.filter (fun ev => match ev with
    | Ev.markAsCoolingDown _ _ => true
    | _ => false)

/-- C2 counterexample: on the exit path where the forward call itself
throws, the handler performs zero `decrementRequestCount` calls for the
selected credential, not exactly one as claimed (the decrement is an inline
statement after the await, not a scoped/finally release). -/
theorem release_skipped_when_forward_raises :
    countRelease "k1"
        (chatCompletionsHandler 60000 (some "k1") ForwardBehavior.raises WriteBehavior.ok) = 0
    ∧ countRelease "k1"
        (chatCompletionsHandler 60000 (some "k1") ForwardBehavior.raises WriteBehavior.ok) ≠ 1 := by
  constructor <;> decide

/-- C2 (amended): whenever the dispatcher returns a credential and the
forward call returns an outcome record, the handler calls
`decrementRequestCount` on that credential exactly once on every exit path
(success, error outcome, and a thrown exception during response writing);
but when the forward call itself throws, the handler calls it zero times. -/
theorem release_exactly_once_when_forward_returns :
    (∀ cd k r wb,
      countRelease k
        (chatCompletionsHandler cd (some k) (ForwardBehavior.returns r) wb) = 1)
    ∧ (∀ cd k wb,
      countRelease k
        (chatCompletionsHandler cd (some k) ForwardBehavior.raises wb) = 0) := by
  constructor
  · intro cd k r wb
    rcases r with ⟨err, hs, hr⟩
    rcases err with _ | ⟨msg, sc, ak, irl⟩
    · cases hs <;> cases hr <;> cases wb <;>
        simp [chatCompletionsHandler, countRelease, respondEv, List.countP_cons]
    · cases irl <;> cases wb <;>
        simp [chatCompletionsHandler, countRelease, respondEv, List.countP_cons]
  · intro cd k wb
    simp [chatCompletionsHandler, countRelease, List.countP_cons]

/-- C3: the handler calls `markAsCoolingDown` on the selected credential,
with the configured cooldown duration, exactly when the forward outcome is
an error with `isRateLimitError = true`; any other outcome (non-rate-limit
error, stream, response, defensive branch, or a rejected forward call)
produces no cooldown call. -/
theorem coolDown_iff_rate_limit_failure :
    (∀ cd k r wb,
      coolDownEvents (chatCompletionsHandler cd (some k) (ForwardBehavior.returns r) wb)
        = match r.error with
          | some err =>
            if err.isRateLimitError then [Ev.markAsCoolingDown k cd] else []
          | none => [])
    ∧ (∀ cd k wb,
      coolDownEvents (chatCompletionsHandler cd (some k) ForwardBehavior.raises wb) = []) := by
  constructor
  · intro cd k r wb
    rcases r with ⟨err, hs, hr⟩
    rcases err with _ | ⟨msg, sc, ak, irl⟩
    · cases hs <;> cases hr <;> cases wb <;>
        simp [chatCompletionsHandler, coolDownEvents, respondEv]
    · cases irl <;> cases wb <;>
        simp [chatCompletionsHandler, coolDownEvents, respondEv]
  · intro cd k wb
    simp [chatCompletionsHandler, coolDownEvents]

/-- C6: when the dispatcher returns no credential, the handler responds 503
(when the write succeeds) and performs no forward call, no decrement and no
cooldown call under any write behaviour. -/
theorem unavailable_responds_503_without_forwarding :
    ∀ cd fwd wb,
      chatCompletionsHandler cd none fwd WriteBehavior.ok = [Ev.respond 503]
      ∧ Ev.forwardCall ∉ chatCompletionsHandler cd none fwd wb
      ∧ (∀ k, Ev.decrementRequestCount k ∉ chatCompletionsHandler cd none fwd wb)
      ∧ (∀ k d, Ev.markAsCoolingDown k d ∉ chatCompletionsHandler cd none fwd wb) := by
  intro cd fwd wb
  refine ⟨rfl, ?_, ?_, ?_⟩
  · cases wb <;> simp [chatCompletionsHandler, respondEv]
  · intro k
    cases wb <;> simp [chatCompletionsHandler, respondEv]
  · intro k d
    cases wb <;> simp [chatCompletionsHandler, respondEv]

/-- C9: whenever the forward call returns, the very next handler action
after the forward call is the decrement of the selected credential; all
result evaluation (cooldown marking, error translation, response or stream
delivery) happens strictly after it, and no further decrement occurs. -/
theorem release_before_result_evaluation :
    ∀ cd k r wb, ∃ rest,
      chatCompletionsHandler cd (some k) (ForwardBehavior.returns r) wb
        = Ev.forwardCall :: Ev.decrementRequestCount k :: rest
      ∧ (∀ k2, Ev.decrementRequestCount k2 ∉ rest) := by
  intro cd k r wb
  refine ⟨_, rfl, ?_⟩
  intro k2
  rcases r with ⟨err, hs, hr⟩
  rcases err with _ | ⟨msg, sc, ak, irl⟩
  · cases hs <;> cases hr <;> cases wb <;> simp [respondEv]
  · cases irl <;> cases wb <;> simp [respondEv]

/-- UTF-8 continuation byte test (0x80..0xBF). -/
def utf8Cont (b : Nat) : Bool := 128 ≤ b && b ≤ 191

/-- Admissible second byte of a three-byte sequence led by `a`
(0xE0 narrows to 0xA0..0xBF, 0xED narrows to 0x80..0x9F). -/
def utf8Second3 (a c : Nat) : Bool :=
  if a = 224 then 160 ≤ c && c ≤ 191
  else if a = 237 then 128 ≤ c && c ≤ 159
  else utf8Cont c

/-- Admissible second byte of a four-byte sequence led by `a`
(0xF0 narrows to 0x90..0xBF, 0xF4 narrows to 0x80..0x8F). -/
def utf8Second4 (a c : Nat) : Bool :=
  if a = 240 then 144 ≤ c && c ≤ 191
  else if a = 244 then 128 ≤ c && c ≤ 143
  else utf8Cont c

/-- UTF-8 encoding of the replacement character U+FFFD, which
`TextDecoder` substitutes for invalid input and `res.write` re-encodes. -/
def repl : List Nat := [239, 191, 189]

/-- Feeding one byte to the decoder in its initial state: an ASCII byte is
emitted at once, a valid lead byte is held back, anything else becomes the
replacement character.  The first component is the re-encoded output, the
second the held-back bytes. -/
def utf8Start (b : Nat) : List Nat × List Nat :=
  if b < 128 then ([b], [])
  else if 194 ≤ b && b ≤ 223 then ([], [b])
  else if 224 ≤ b && b ≤ 239 then ([], [b])
  else if 240 ≤ b && b ≤ 244 then ([], [b])
  else (repl, [])

/-- One byte-step of `TextDecoder("utf-8", stream: true)` composed with the
UTF-8 re-encoding of `res.write`: `held` is the incomplete sequence carried
so far.  A completed sequence is emitted verbatim; on an inadmissible byte
the held bytes collapse to the replacement character and the byte is
reprocessed from the initial state. -/
def utf8Feed (held : List Nat) (b : Nat) : List Nat × List Nat :=
  match held with
  | [] => utf8Start b
  | [a] =>
    if 194 ≤ a && a ≤ 223 then
      if utf8Cont b then ([a, b], [])
      else
        let r := utf8Start b
        (repl ++ r.1, r.2)
    else if 224 ≤ a && a ≤ 239 then
      if utf8Second3 a b then ([], [a, b])
      else
        let r := utf8Start b
        (repl ++ r.1, r.2)
    else
      if utf8Second4 a b then ([], [a, b])
      else
        let r := utf8Start b
        (repl ++ r.1, r.2)
  | [a, c] =>
    if 224 ≤ a && a ≤ 239 then
      if utf8Cont b then ([a, c, b], [])
      else
        let r := utf8Start b
        (repl ++ r.1, r.2)
    else
      if utf8Cont b then ([], [a, c, b])
      else
        let r := utf8Start b
        (repl ++ r.1, r.2)
  | _ =>
    if utf8Cont b then (held ++ [b], [])
    else
      let r := utf8Start b
      (repl ++ r.1, r.2)

/-- Decode one chunk, starting from the held-back bytes `held`, returning
the re-encoded output bytes for this chunk and the new held-back bytes. -/
def utf8Decode (held : List Nat) (chunk : List Nat) : List Nat × List Nat :=
  chunk.foldl (fun acc b =>
    let r := utf8Feed acc.2 b
    (acc.1 ++ r.1, r.2)) ([], held)

/-- Observable actions of `handleStreamingResponse`: a `reader.read()`
yielding a chunk, a `res.write` of the (decoded, re-encoded) bytes, the
final read resolving `done`, the read rejecting mid-stream, and `res.end`. -/
inductive REv where
  | readChunk (c : List Nat)
  | writeChunk (bytes : List Nat)
  | readDone
  | readRaised
  | resEnd
deriving DecidableEq

/-- How the upstream chunk sequence terminates: normal end of stream, or a
mid-stream failure (the pending read rejects). -/
inductive UpEnd where
  | done
  | errored
deriving DecidableEq

/-- Terminal read event for each kind of stream end. -/
def termEv : UpEnd → REv
  | .done => REv.readDone
  | .errored => REv.readRaised

/-- The write payloads produced chunk by chunk, threading the decoder's
held-back bytes through the chunk sequence. -/
def writesFrom (held : List Nat) : List (List Nat) → List (List Nat)
  | [] => []
  | c :: rest =>
    let r := utf8Decode held c
    r.1 :: writesFrom r.2 rest

/-- Loop of `handleStreamingResponse`: read a chunk, decode it with the
streaming decoder, write the result, repeat; on `done` break, on a rejected
read fall into the catch (which writes nothing); the finally block always
calls `res.end`. -/
def relayLoop (held : List Nat) : List (List Nat) → UpEnd → List REv
  | [], e => [termEv e, REv.resEnd]
  | c :: rest, e =>
    let r := utf8Decode held c
    REv.readChunk c :: REv.writeChunk r.1 :: relayLoop r.2 rest e

/-- Shallow embedding of `handleStreamingResponse` of createOpenAIRouter:
relays the given upstream chunk sequence, which terminates as `e` says,
starting from a fresh `TextDecoder`. -/
def handleStreamingResponse (chunks : List (List Nat)) (e : UpEnd) : List REv :=
  relayLoop [] chunks e

/-- All bytes of all chunks are ASCII. -/
def allAscii (chunks : List (List Nat)) : Bool :=
  chunks.all (fun c => c.all (fun b => b < 128))

/-- Helper: over ASCII bytes the decoder fold emits each byte at once. -/
theorem utf8Decode_ascii_aux (c : List Nat)
    (h : c.all (fun b => b < 128) = true) :
    ∀ out, c.foldl (fun acc b =>
        let r := utf8Feed acc.2 b
        (acc.1 ++ r.1, r.2)) (out, []) = (out ++ c, []) := by
  induction c with
  | nil => intro out; simp
  | cons b rest ih =>
    intro out
    simp only [List.all_cons, Bool.and_eq_true, decide_eq_true_eq] at h
    have hb : utf8Feed ([] : List Nat) b = ([b], []) := by
      simp [utf8Feed, utf8Start, h.1]
    rw [List.foldl_cons]
    dsimp only
    rw [hb]
    dsimp only
    rw [ih h.2 (out ++ [b])]
    simp

/-- Helper: the streaming decoder passes an all-ASCII chunk through
unchanged and holds nothing back. -/
theorem utf8Decode_ascii (c : List Nat)
    (h : c.all (fun b => b < 128) = true) :
    utf8Decode [] c = (c, []) := by
  have := utf8Decode_ascii_aux c h []
  simpa [utf8Decode] using this

/-- Helper: one write payload per chunk. -/
theorem writesFrom_length (chunks : List (List Nat)) :
    ∀ held, (writesFrom held chunks).length = chunks.length := by
  induction chunks with
  | nil => intro held; rfl
  | cons c rest ih => intro held; simp [writesFrom, ih]

/-- Helper: on all-ASCII chunk sequences the write payloads are exactly the
chunks. -/
theorem writesFrom_ascii (chunks : List (List Nat))
    (h : allAscii chunks = true) : writesFrom [] chunks = chunks := by
  induction chunks with
  | nil => rfl
  | cons c rest ih =>
    simp only [allAscii, List.all_cons, Bool.and_eq_true] at h
    simp [writesFrom, utf8Decode_ascii c h.1, ih h.2]

/-- Helper: the relay trace interleaves one read and one write per chunk, in
upstream order, and always terminates with the terminal read event followed
by `res.end`. -/
theorem relayLoop_shape (chunks : List (List Nat)) :
    ∀ held e,
      relayLoop held chunks e
        = (List.zipWith (fun c w => [REv.readChunk c, REv.writeChunk w])
            chunks (writesFrom held chunks)).flatten ++ [termEv e, REv.resEnd] := by
  induction chunks with
  | nil => intro held e; rfl
  | cons c rest ih =>
    intro held e
    simp [relayLoop, writesFrom, ih]

/-- C4 counterexample: the upstream chunk `[0xC3]` (the first byte of a
two-byte UTF-8 sequence) is read but the bytes written for it are `[]`, not
`[0xC3]`: the relay decodes with `TextDecoder(stream: true)` and re-encodes
on write, so chunks are not passed through byte-identically. -/
theorem chunk_not_byte_identical :
    handleStreamingResponse [[195]] UpEnd.done
      = [REv.readChunk [195], REv.writeChunk [], REv.readDone, REv.resEnd]
    ∧ ([] : List Nat) ≠ [195] := by
  constructor
  · rfl
  · decide

/-- C4 (amended): the relay decodes each chunk as streaming UTF-8 text and
re-encodes it on write.  Chunks consisting entirely of ASCII bytes are
written byte-identically, but a chunk ending in an incomplete multi-byte
sequence has those bytes withheld by the decoder (emitted with a later
chunk, or dropped at end of stream), so byte-identity of every written
chunk does not hold in general. -/
theorem ascii_chunks_pass_through :
    ∀ (chunks : List (List Nat)) (e : UpEnd), allAscii chunks = true →
      handleStreamingResponse chunks e
        = (chunks.map (fun c => [REv.readChunk c, REv.writeChunk c])).flatten
            ++ [termEv e, REv.resEnd] := by
  intro chunks e h
  have hs := relayLoop_shape chunks [] e
  rw [handleStreamingResponse, hs, writesFrom_ascii chunks h,
    List.zipWith_same]

/-- Witness for C4 (amended) on the concrete ASCII chunks "hi", "!". -/
theorem ascii_chunks_pass_through_witness :
    allAscii [[104, 105], [33]] = true
    ∧ handleStreamingResponse [[104, 105], [33]] UpEnd.done
        = [REv.readChunk [104, 105], REv.writeChunk [104, 105],
           REv.readChunk [33], REv.writeChunk [33], REv.readDone, REv.resEnd] := by
  refine ⟨by decide, ?_⟩
  have h := ascii_chunks_pass_through [[104, 105], [33]] UpEnd.done (by decide)
  simpa using h

/-- C5: for every finite upstream chunk sequence and either kind of stream
end, the relay's trace reads and writes chunk by chunk — each chunk's write
happens before the next read, one write per chunk, in upstream order, with
none dropped, duplicated or reordered — and ends the sink exactly once at
the end, both on normal completion and on a mid-stream failure, writing no
error frame; on all-ASCII chunks the write payloads equal the chunks. -/
theorem relay_order_preserving_and_closes :
    ∀ (chunks : List (List Nat)) (e : UpEnd),
      handleStreamingResponse chunks e
        = (List.zipWith (fun c w => [REv.readChunk c, REv.writeChunk w])
            chunks (writesFrom [] chunks)).flatten ++ [termEv e, REv.resEnd]
      ∧ (writesFrom [] chunks).length = chunks.length
      ∧ (allAscii chunks = true → writesFrom [] chunks = chunks) := by
  intro chunks e
  exact ⟨relayLoop_shape chunks [] e, writesFrom_length chunks [],
    fun h => writesFrom_ascii chunks h⟩

/-- Witness for C5 on the chunks "a", "b", "c" with a mid-stream failure
after the last chunk: writes follow reads in order and the sink is ended. -/
theorem relay_order_witness :
    allAscii [[97], [98], [99]] = true
    ∧ handleStreamingResponse [[97], [98], [99]] UpEnd.errored
        = [REv.readChunk [97], REv.writeChunk [97], REv.readChunk [98],
           REv.writeChunk [98], REv.readChunk [99], REv.writeChunk [99],
           REv.readRaised, REv.resEnd]
    ∧ writesFrom [] [[97], [98], [99]] = [[97], [98], [99]] := by
  refine ⟨by decide, by rfl, ?_⟩
  exact (relay_order_preserving_and_closes [[97], [98], [99]] UpEnd.errored).2.2 (by decide)

/-- Whitespace as removed by JavaScript `String.prototype.trim` (the common
code points: space, tab, LF, CR, VT, FF, NBSP). -/
def jsWhitespace (c : Char) : Bool :=
  c == ' ' || c == '\t' || c == '\n' || c == '\r'
    || c == Char.ofNat 11 || c == Char.ofNat 12 || c == Char.ofNat 160

/-- Leading-whitespace removal of `trim`. -/
def jsTrimLeft (s : List Char) : List Char := s.dropWhile jsWhitespace

/-- Trailing-whitespace removal of `trim`. -/
def jsTrimRight (s : List Char) : List Char :=
  (s.reverse.dropWhile jsWhitespace).reverse

/-- JavaScript `key.trim()` over the character list of the string. -/
def jsTrim (s : List Char) : List Char := jsTrimRight (jsTrimLeft s)

/-- JavaScript `s.split(',')`: the empty string yields one empty field. -/
def splitOnComma : List Char → List (List Char)
  | [] => [[]]
  | c :: rest =>
    if c = ',' then [] :: splitOnComma rest
    else
      match splitOnComma rest with
      | [] => [[c]]
      | g :: gs => (c :: g) :: gs

/-- Error printed when `GEMINI_API_KEYS` is unset (or empty, which is falsy). -/
def missingKeysMsg : String :=
  "GEMINI_API_KEYS environment variable is not set. Please add your API keys to .env file."

/-- Error printed when no key survives the split/trim/filter pipeline. -/
def noValidKeysMsg : String :=
  "No valid API keys found in GEMINI_API_KEYS environment variable."

/-- The `apiKeys` pipeline of server.ts:
`apiKeysEnv.split(',').map(key => key.trim()).filter(key => key.length > 0)`. -/
def filteredKeys (s : List Char) : List (List Char) :=
  ((splitOnComma s).map jsTrim).filter (fun k => 0 < k.length)

/-- Shallow embedding of the key-loading prologue of server.ts:
`none` models an unset `GEMINI_API_KEYS`; an `Except.error` models
`process.exit(1)` with the printed message; otherwise the process starts
with the filtered key pool. -/
def loadApiKeys : Option (List Char) → Except String (List (List Char))
  | none => Except.error missingKeysMsg
  | some s =>
    if s = [] then Except.error missingKeysMsg
    else
      if filteredKeys s = [] then Except.error noValidKeysMsg
      else Except.ok (filteredKeys s)

/-- A well-formed loaded key: non-empty, and neither its first nor its last
character is whitespace. -/
def goodKey (k : List Char) : Bool :=
  !k.isEmpty
    && (match k.head? with | some c => !jsWhitespace c | none => true)
    && (match k.getLast? with | some c => !jsWhitespace c | none => true)

/-- A load result is well formed when, if the process starts, its pool is
non-empty and every key in it is a well-formed key. -/
def keysGood : Except String (List (List Char)) → Bool
  | Except.ok keys => !keys.isEmpty && keys.all goodKey
  | Except.error _ => true

/-- Helper: a non-empty `dropWhile` result keeps the last element of the
original list. -/
theorem getLast?_dropWhile_of_ne_nil (p : α → Bool) (l : List α)
    (h : l.dropWhile p ≠ []) : (l.dropWhile p).getLast? = l.getLast? := by
  induction l with
  | nil => simp at h
  | cons a rest ih =>
    by_cases hp : p a
    · rw [List.dropWhile_cons_of_pos hp] at h ⊢
      have hrest : rest ≠ [] := by
        intro hr
        rw [hr] at h
        simp at h
      rw [ih h]
      cases rest with
      | nil => exact absurd rfl hrest
      | cons b rs => simp
    · rw [List.dropWhile_cons_of_neg hp]

/-- Helper: the first character of a trimmed string is not whitespace. -/
theorem jsTrim_head (s : List Char) (c : Char)
    (h : (jsTrim s).head? = some c) : jsWhitespace c = false := by
  rw [jsTrim, jsTrimRight, List.head?_reverse] at h
  have hne : (jsTrimLeft s).reverse.dropWhile jsWhitespace ≠ [] := by
    intro hnil
    rw [hnil] at h
    simp at h
  rw [getLast?_dropWhile_of_ne_nil jsWhitespace (jsTrimLeft s).reverse hne,
    List.getLast?_reverse, jsTrimLeft] at h
  have := List.head?_dropWhile_not jsWhitespace s
  rw [h] at this
  exact this

/-- Helper: the last character of a trimmed string is not whitespace. -/
theorem jsTrim_last (s : List Char) (c : Char)
    (h : (jsTrim s).getLast? = some c) : jsWhitespace c = false := by
  rw [jsTrim, jsTrimRight, List.getLast?_reverse] at h
  have := List.head?_dropWhile_not jsWhitespace (jsTrimLeft s).reverse
  rw [h] at this
  exact this

/-- Helper: every key surviving the split/trim/filter pipeline is a
well-formed key. -/
theorem filteredKeys_good (s : List Char) (k : List Char)
    (hk : k ∈ filteredKeys s) : goodKey k = true := by
  rw [filteredKeys] at hk
  rw [List.mem_filter] at hk
  obtain ⟨hmem, hlen⟩ := hk
  rw [List.mem_map] at hmem
  obtain ⟨x, _, hx⟩ := hmem
  have hne : k ≠ [] := by
    intro hnil
    rw [hnil] at hlen
    simp at hlen
  rw [goodKey]
  have h1 : k.isEmpty = false := by
    cases k with
    | nil => exact absurd rfl hne
    | cons a rs => rfl
  have h2 : (match k.head? with
      | some c => !jsWhitespace c
      | none => true) = true := by
    cases hh : k.head? with
    | none => rfl
    | some c =>
      have := jsTrim_head x c (by rw [hx]; exact hh)
      simp [this]
  have h3 : (match k.getLast? with
      | some c => !jsWhitespace c
      | none => true) = true := by
    cases hh : k.getLast? with
    | none => rfl
    | some c =>
      have := jsTrim_last x c (by rw [hx]; exact hh)
      simp [this]
  rw [h1, h2, h3]
  rfl

/-- C10: the pool is built by splitting `GEMINI_API_KEYS` on commas,
trimming each entry and discarding empty entries; whenever the process
starts, every loaded key is non-empty with no surrounding whitespace and
the pool is non-empty; an unset (or empty, hence falsy) variable and a
pipeline that filters out everything both exit with an error instead. -/
theorem api_keys_loading :
    (∀ env, keysGood (loadApiKeys env) = true)
    ∧ loadApiKeys none = Except.error missingKeysMsg
    ∧ (∀ s, filteredKeys s = [] → exceptIsOk (loadApiKeys (some s)) = false) := by
  refine ⟨?_, rfl, ?_⟩
  · intro env
    cases env with
    | none => rfl
    | some s =>
      rw [loadApiKeys]
      split
      · rfl
      · split
        · rfl
        · rename_i hkeys
          rw [keysGood]
          have hne : (filteredKeys s).isEmpty = false := by
            cases hfk : filteredKeys s with
            | nil => exact absurd hfk hkeys
            | cons a rs => rfl
          rw [hne]
          have hall : (filteredKeys s).all goodKey = true := by
            rw [List.all_eq_true]
            intro k hk
            exact filteredKeys_good s k hk
          rw [hall]
          rfl
  · intro s h
    rw [loadApiKeys]
    split
    · rfl
    · simp [h, exceptIsOk]

/-- Witness for C10 at the concrete environment value " , ," (only commas
and whitespace): the pipeline filters out everything and the process exits
with an error. -/
theorem api_keys_loading_witness :
    filteredKeys (" , ,".toList) = []
    ∧ exceptIsOk (loadApiKeys (some (" , ,".toList))) = false :=
  ⟨by decide, api_keys_loading.2.2 (" , ,".toList) (by decide)⟩
